import Mathlib

/-!
# Verification of the Panopto extractor (`youtube_dl/extractor/panopto.py`)

A shallow embedding of the extractor's pure logic:

* `handle_error_response` — the error classifier (lines 11–16 of the source);
* `PanoptoIE._try_parse_timestamps` — the chapter extractor (lines 32–49);
* the delivery-normalization part of `PanoptoIE._download_panopto_video`
  (lines 64–125): title composition, stream-format discovery, the
  no-playable-formats check and the format ranking;
* the pagination loop of `PanoptoFolderIE._real_extract` (lines 166–189),
  with the two network collaborators (sessions-page fetch and per-video
  fetch) passed in as functions.

Loosely-typed JSON fields (`dict.get`) are modelled with `Option`; Python
truthiness of a string is "present and non-empty", of a number "present and
non-zero".  JSON numbers that the source treats as floats (times, durations)
are modelled as rationals.  Network transport and `re.match`-based URL
routing are outside the embedded core.
-/

namespace Panopto

/-! ## Error classifier (`handle_error_response`, source lines 11–16) -/

/-- A decoded JSON API response as far as the error classifier inspects it:
the two fields `ErrorCode` and `ErrorMessage`, each possibly absent
(`dict.get` returns `None`). -/
structure ErrResponse where
  ErrorCode : Option Int := none
  ErrorMessage : Option String := none
deriving DecidableEq

/-- The exact text raised with `expected=True` when unauthorized access is
detected (source line 13). -/
def loginMessage : String :=
  "Need to login to access Panopto video, pass a cookie file as explained in https://github.com/ytdl-org/youtube-dl#how-do-i-pass-cookies-to-youtube-dl"

/-- Observable outcome of `handle_error_response`: it either returns
normally (`ok`), raises an `ExtractorError` (the auth-required one carries
`expected=True`, the API one carries the formatted message and the video
id), or dies with a Python `TypeError` (from evaluating
`"Unauthorized" in None`). -/
inductive ErrOutcome where
  | ok
  | authRequired (message : String) (expected : Bool)
  | apiError (message : String) (videoId : String)
  | typeError
deriving DecidableEq

/-- Python's `needle in hay` on strings: substring containment. -/
def strContains (hay needle : String) : Bool :=
  decide (needle.data <:+: hay.data)

/-- `handle_error_response(response, video_id)`, source lines 11–16.

```python
if response.get("ErrorCode") and "Unauthorized" in response.get("ErrorMessage"):
    raise ExtractorError(..., expected=True)
elif response.get("ErrorCode"):
    raise ExtractorError("Got error code %d: %s" % (code, message), video_id=video_id)
```

A missing `ErrorCode` (or a present-but-zero one) is falsy, so neither
branch fires.  A truthy `ErrorCode` with a missing `ErrorMessage` evaluates
`"Unauthorized" in None`, a `TypeError`. -/
def handle_error_response (response : ErrResponse) (video_id : String) : ErrOutcome :=
  match response.ErrorCode with
  | none => .ok
  | some c =>
    if c = 0 then .ok
    else
      match response.ErrorMessage with
      | none => .typeError
      | some msg =>
        if strContains msg "Unauthorized" then .authRequired loginMessage true
        else .apiError ("Got error code " ++ toString c ++ ": " ++ msg) video_id

/-! ## Data model of a raw `Delivery` payload -/

/-- One element of `Delivery["PodcastStreams"]`: only its `StreamUrl` is
read. -/
structure PodcastStream where
  StreamUrl : Option String := none
deriving DecidableEq

/-- One element of `Delivery["Streams"]`: its `StreamUrl` and display
`Name` are read. -/
structure Stream where
  StreamUrl : Option String := none
  Name : Option String := none
deriving DecidableEq

/-- One element of `Delivery["Timestamps"]`: a start `Time` plus a
`Caption`/`Data` pair used for the chapter title. -/
structure Timestamp where
  Time : Option ℚ := none
  Caption : Option String := none
  Data : Option String := none
deriving DecidableEq

/-- The `Delivery` object of a successful response, restricted to the
fields the normalizer reads.  Every field is optional, mirroring
`dict.get`. -/
structure Delivery where
  SessionGroupLongName : Option String := none
  SessionName : Option String := none
  PublicID : Option String := none
  SessionAbstract : Option String := none
  OwnerDisplayName : Option String := none
  Duration : Option ℚ := none
  PodcastStreams : Option (List PodcastStream) := none
  Streams : Option (List Stream) := none
  Timestamps : Option (List Timestamp) := none
deriving DecidableEq

/-- One produced format dict: `url`, optional `ext`, and `format_note`. -/
structure StreamFormat where
  url : String
  ext : Option String
  format_note : String
deriving DecidableEq

/-- One produced chapter dict: `start_time`, `end_time`, `title`. -/
structure Chapter where
  start_time : Option ℚ
  end_time : Option ℚ
  title : Option String
deriving DecidableEq

/-- The info dict returned by `_download_panopto_video` (source lines
117–125). -/
structure VideoMetadata where
  id : String
  title : String
  description : Option String
  creator : Option String
  duration : Option ℚ
  formats : List StreamFormat
  chapters : Option (List Chapter)
deriving DecidableEq

/-! ## Chapter extractor (`_try_parse_timestamps`, source lines 32–49) -/

/-- Python's `a or b` on two optional strings: the left value when it is
truthy (present and non-empty), otherwise the right value.  Used for
`cur_ts.get("Caption") or cur_ts.get("Data")` (source line 46). -/
def pyOrStr (a b : Option String) : Option String :=
  match a with
  | some s => if s = "" then b else some s
  | none => b

/-- The loop body of `_try_parse_timestamps` (source lines 40–47): the zip
`zip(timestamps, timestamps[1:] + [vid_time])` pairs each entry with its
successor, the successor of the last entry being the float `vid_time`
itself.  For the last entry the `isinstance(next_ts, float)` test selects
the sentinel (durations are JSON floats, modelled as `ℚ`); for the others
the end is `next_ts.get("Time", vid_time)`.  `float_or_none` is the
identity on these already-numeric values. -/
def mkChapters (vid_time : ℚ) : List Timestamp → List Chapter
  | [] => []
  | [t] => [{ start_time := t.Time, end_time := some vid_time,
              title := pyOrStr t.Caption t.Data }]
  | t :: t2 :: rest =>
    { start_time := t.Time, end_time := some (t2.Time.getD vid_time),
      title := pyOrStr t.Caption t.Data } :: mkChapters vid_time (t2 :: rest)

/-- `PanoptoIE._try_parse_timestamps(delivery)`, source lines 32–49.
Returns `None` when `Duration` is absent or zero (`if not vid_time`) or
when `Timestamps` is absent or empty (`if not timestamps`); otherwise one
chapter per timestamp entry. -/
def try_parse_timestamps (delivery : Delivery) : Option (List Chapter) :=
  match delivery.Duration with
  | none => none
  | some vid_time =>
    if vid_time = 0 then none
    else
      match delivery.Timestamps with
      | none => none
      | some timestamps =>
        if timestamps = [] then none
        else some (mkChapters vid_time timestamps)

/-! ## Delivery normalizer (`_download_panopto_video`, source lines 64–125) -/

/-- Helper for `splitLastDot` on the underlying character list: split at
the rightmost `'.'`, returning the parts before and after it, or `none`
when no dot occurs. -/
def splitLastDotAux : List Char → Option (List Char × List Char)
  | [] => none
  | c :: cs =>
    match splitLastDotAux cs with
    | some (f, e) => some (c :: f, e)
    | none => if c = '.' then some ([], cs) else none

/-- `re.match(r"(?P<filename>.*).*\.(?P<ext>.*)", stream_name)` (source
line 87): with a greedy `filename` group followed by a literal dot and a
greedy `ext` group, a match splits the name at its *last* dot —
`filename` is everything before it, `ext` everything after — and fails
exactly when the name has no dot.  (`.` in the pattern does not match a
newline; stream names are single-line file names, modelled accordingly.) -/
def splitLastDot (s : String) : Option (String × String) :=
  (splitLastDotAux s.data).map fun p => (String.mk p.1, String.mk p.2)

/-- Processing of one `Delivery["PodcastStreams"]` entry (source lines
72–78): a truthy `StreamUrl` yields `{"url": ..., "format_note":
"podcast"}`, anything else is skipped. -/
def podcastFormatOf (podcast : PodcastStream) : Option StreamFormat :=
  match podcast.StreamUrl with
  | none => none
  | some u => if u = "" then none else some { url := u, ext := none, format_note := "podcast" }

/-- Processing of one `Delivery["Streams"]` entry (source lines 79–103):
entries with a falsy `StreamUrl` are skipped; otherwise the display name
(`stream.get("Name") or ""`) is split at its last dot to obtain an
extension and a note (`shared-screen` / `speaker-view` / the filename
part); an unsplittable non-empty name is the note verbatim, and an empty
name yields the note `unknown`. -/
def streamFormatOf (stream : Stream) : Option StreamFormat :=
  match stream.StreamUrl with
  | none => none
  | some u =>
    if u = "" then none
    else
      let stream_name := stream.Name.getD ""
      match splitLastDot stream_name with
      | some (filename, stream_ext) =>
        some { url := u, ext := some stream_ext,
               format_note :=
                 if strContains filename "Shared screen" then "shared-screen"
                 else if strContains filename "Speaker view" then "speaker-view"
                 else filename }
      | none =>
        if stream_name = "" then some { url := u, ext := none, format_note := "unknown" }
        else some { url := u, ext := none, format_note := stream_name }

/-- The format list in discovery order (source lines 71–103): podcast
entries first (`delivery.get("PodcastStreams", [])`), then the generic
stream entries (`delivery.get("Streams", [])`), each list filtered as the
loops do. -/
def discoveredFormats (delivery : Delivery) : List StreamFormat :=
  (delivery.PodcastStreams.getD []).filterMap podcastFormatOf
    ++ (delivery.Streams.getD []).filterMap streamFormatOf

/-- `FORMAT_TO_ORDERING.get(fmt["format_note"], 0)` (source lines
110–115): the fixed weight table `podcast ↦ 3`, `shared-screen ↦ 2`,
`speaker-view ↦ 1`, default `0`. -/
def FORMAT_TO_ORDERING (note : String) : ℕ :=
  if note = "podcast" then 3
  else if note = "shared-screen" then 2
  else if note = "speaker-view" then 1
  else 0

/-- The sort key comparison used by `sorted(formats, key=...)`. -/
def fmtLe (a b : StreamFormat) : Prop :=
  FORMAT_TO_ORDERING a.format_note ≤ FORMAT_TO_ORDERING b.format_note

instance : DecidableRel fmtLe := fun a b =>
  inferInstanceAs (Decidable (FORMAT_TO_ORDERING a.format_note ≤ FORMAT_TO_ORDERING b.format_note))

instance : IsTotal StreamFormat fmtLe :=
  ⟨fun a b => Nat.le_total (FORMAT_TO_ORDERING a.format_note) (FORMAT_TO_ORDERING b.format_note)⟩

instance : IsTrans StreamFormat fmtLe :=
  ⟨fun _ _ _ h h' => Nat.le_trans h h'⟩

/-- `sorted(formats, key=lambda fmt: FORMAT_TO_ORDERING.get(fmt["format_note"], 0))`
(source line 115): Python's `sorted` is a *stable ascending* sort on the
key; modelled by the stable `List.insertionSort` on `fmtLe`. -/
def sortFormats (formats : List StreamFormat) : List StreamFormat :=
  List.insertionSort fmtLe formats

/-- Python truthiness filter on an optional string: keep it only when it
is present and non-empty. -/
def pyTruthyStr : Option String → Option String
  | some s => if s = "" then none else some s
  | none => none

/-- Title composition (source lines 66–69):

```python
title = " -> ".join([p for p in [group_long_name, session_name] if p]) \
        or delivery.get("PublicID", video_id)
```

The `or` falls through exactly when the join is the empty string; the
`dict.get` default applies only when `PublicID` is *absent*. -/
def mkTitle (delivery : Delivery) (video_id : String) : String :=
  let joined := String.intercalate " -> "
    ([delivery.SessionGroupLongName, delivery.SessionName].filterMap pyTruthyStr)
  if joined = "" then delivery.PublicID.getD video_id else joined

/-- The one error the normalization core can raise itself (source line
106): `ExtractorError("Panopto video doesn't include any Podcast Streams")`. -/
inductive ExtractorError where
  | noPlayableFormats
deriving DecidableEq

/-- The delivery-normalization part of `PanoptoIE._download_panopto_video`
(source lines 64–125), taking the already-fetched and error-checked
`Delivery` object (transport and `handle_error_response` are modelled
separately): compose the title, discover the formats from both stream
lists, fail when none is playable, and otherwise return the info dict
with the stably ascending-sorted format list and the parsed chapters. -/
def download_panopto_video (delivery : Delivery) (video_id : String) :
    Except ExtractorError VideoMetadata :=
  if discoveredFormats delivery = [] then .error .noPlayableFormats
  else .ok {
    id := video_id
    title := mkTitle delivery video_id
    description := delivery.SessionAbstract
    creator := delivery.OwnerDisplayName
    duration := delivery.Duration
    formats := sortFormats (discoveredFormats delivery)
    chapters := try_parse_timestamps delivery }

/-! ## Folder aggregation (`PanoptoFolderIE._real_extract`, source lines
166–189) -/

/-- One response to the sessions-page fetch (`fetch_session(page_num)`),
as far as the loop reads it: `session["d"]["TotalNumber"]` and the
`DeliveryID`s of `session["d"]["Results"]`. -/
structure SessionsPage where
  TotalNumber : ℕ
  Results : List String
deriving DecidableEq

/-- The inputs of the aggregation loop: the folder name obtained by the
(fatal-on-error) folder-info fetch, the folder id from the URL, the
sessions-page collaborator (`fetch_session`, assumed error-free here —
its errors are fatal and abort everything), and the per-video
collaborator, `extractor._download_panopto_video(panopto_base, delivery_id)`,
whose exceptions are caught by the loop and modelled as `none`. -/
structure FolderInput where
  folderName : Option String
  folderId : String
  pages : ℕ → SessionsPage
  fetch : String → Option VideoMetadata

/-- The playlist dict returned at source lines 184–189. -/
structure FolderListing where
  title : Option String
  id : String
  entries : List VideoMetadata
deriving DecidableEq

/-- The successfully fetched entries after the first `k` pages: every
`DeliveryID` of pages `0 … k-1` is attempted in order, failures are
skipped (source lines 176–181). -/
def successEntries (inp : FolderInput) (k : ℕ) : List VideoMetadata :=
  ((List.range k).flatMap fun i => (inp.pages i).Results).filterMap inp.fetch

/-- The `while` guard (source line 170):
`max_elements is None or len(entries) < max_elements`. -/
def continueLoop (max_elements : Option ℕ) (numEntries : ℕ) : Bool :=
  match max_elements with
  | none => true
  | some m => decide (numEntries < m)

/-- The `while` loop of `PanoptoFolderIE._real_extract` (source lines
166–182), made total with explicit fuel (`none` = the real loop has not
terminated within `fuel` iterations).  Per iteration: fetch the next page,
overwrite `max_elements` with *that* page's `TotalNumber`, attempt every
`DeliveryID` of the page (appending successes, skipping failures), and
increment `page_num`.  On exit it returns the accumulated entries, the
number of pages fetched, and the final `max_elements`. -/
def folderLoop (inp : FolderInput) :
    ℕ → Option ℕ → List VideoMetadata → ℕ → Option (List VideoMetadata × ℕ × Option ℕ)
  | 0, _, _, _ => none
  | fuel + 1, max_elements, entries, page_num =>
    if continueLoop max_elements entries.length then
      folderLoop inp fuel (some (inp.pages page_num).TotalNumber)
        (entries ++ (inp.pages page_num).Results.filterMap inp.fetch) (page_num + 1)
    else some (entries, page_num, max_elements)

/-- `PanoptoFolderIE._real_extract` after the folder-info fetch (source
lines 166–189): run the pagination loop from the initial state
(`max_elements = None`, `entries = []`, `page_num = 0`) and package the
playlist dict. -/
def real_extract_folder (inp : FolderInput) (fuel : ℕ) : Option FolderListing :=
  (folderLoop inp fuel none [] 0).map fun r =>
    { title := inp.folderName, id := inp.folderId, entries := r.1 }

/-! ## Concrete payloads used to instantiate the theorems -/

/-- Scenario 1 of the spec: one podcast stream and one speaker-view
stream. -/
def dPodSpk : Delivery := {
  PodcastStreams := some [{ StreamUrl := some "p.mp4" }]
  Streams := some [{ StreamUrl := some "s.mp4", Name := some "Speaker view.mp4" }] }

/-- The info dict the code produces for `dPodSpk`: the speaker-view
rendition comes *first* and the podcast *last*. -/
def mPodSpk : VideoMetadata := {
  id := "vid"
  title := "vid"
  description := none
  creator := none
  duration := none
  formats := [{ url := "s.mp4", ext := some "mp4", format_note := "speaker-view" },
              { url := "p.mp4", ext := none, format_note := "podcast" }]
  chapters := none }

/-- A delivery with a podcast, a shared-screen and a speaker-view
rendition. -/
def dAllThree : Delivery := {
  PodcastStreams := some [{ StreamUrl := some "p.mp4" }]
  Streams := some [{ StreamUrl := some "a", Name := some "Shared screen.mp4" },
                   { StreamUrl := some "b", Name := some "Speaker view.mp4" }] }

/-- The info dict the code produces for `dAllThree`: ascending weights
1, 2, 3. -/
def mAllThree : VideoMetadata := {
  id := "vid"
  title := "vid"
  description := none
  creator := none
  duration := none
  formats := [{ url := "b", ext := some "mp4", format_note := "speaker-view" },
              { url := "a", ext := some "mp4", format_note := "shared-screen" },
              { url := "p.mp4", ext := none, format_note := "podcast" }]
  chapters := none }

/-- Scenario 3 of the spec: duration 60, two timestamps at 0 and 30. -/
def dChapters : Delivery := {
  Duration := some 60
  Timestamps := some [{ Time := some 0, Caption := none, Data := some "Intro" },
                      { Time := some 30, Caption := none, Data := some "Body" }] }

/-- The chapter list produced for `dChapters`. -/
def chsChapters : List Chapter :=
  [{ start_time := some 0, end_time := some 30, title := some "Intro" },
   { start_time := some 30, end_time := some 60, title := some "Body" }]

/-- A delivery whose only stream entry has an empty `StreamUrl`. -/
def dNoPlayable : Delivery := {
  Streams := some [{ StreamUrl := some "", Name := some "Speaker view.mp4" }] }

/-- A delivery with a single playable podcast stream and nothing else. -/
def dOnePodcast : Delivery := {
  PodcastStreams := some [{ StreamUrl := some "p" }] }

/-- The info dict produced for `dOnePodcast` under video id `"v"`. -/
def mOnePodcast : VideoMetadata := {
  id := "v"
  title := "v"
  description := none
  creator := none
  duration := none
  formats := [{ url := "p", ext := none, format_note := "podcast" }]
  chapters := none }

/-- Both title parts missing and `PublicID` *present but empty*: the
title-fallback edge case. -/
def dEmptyPublicId : Delivery := {
  PublicID := some ""
  PodcastStreams := some [{ StreamUrl := some "p" }] }

/-- The info dict produced for `dEmptyPublicId` under video id
`"vid-123"`: its title is the empty string. -/
def mEmptyPublicId : VideoMetadata := {
  id := "vid-123"
  title := ""
  description := none
  creator := none
  duration := none
  formats := [{ url := "p", ext := none, format_note := "podcast" }]
  chapters := none }

/-- A delivery with both name parts present. -/
def dTitleAB : Delivery := {
  SessionGroupLongName := some "A"
  SessionName := some "B"
  PodcastStreams := some [{ StreamUrl := some "p" }] }

/-- Dummy playlist entries for the folder-aggregation examples. -/
def vA : VideoMetadata :=
  { id := "a", title := "A", description := none, creator := none, duration := none,
    formats := [{ url := "u", ext := none, format_note := "podcast" }], chapters := none }

/-- Second dummy playlist entry. -/
def vB : VideoMetadata :=
  { id := "b", title := "B", description := none, creator := none, duration := none,
    formats := [{ url := "u", ext := none, format_note := "podcast" }], chapters := none }

/-- Third dummy playlist entry. -/
def vC : VideoMetadata :=
  { id := "c", title := "C", description := none, creator := none, duration := none,
    formats := [{ url := "u", ext := none, format_note := "podcast" }], chapters := none }

/-- Folder input where the first page reports a total of 1 and lists one
session whose per-video fetch *fails*; every later page lists session
`"b"`, whose fetch succeeds. -/
def inpOneFailure : FolderInput := {
  folderName := some "F"
  folderId := "fid"
  pages := fun n => if n = 0 then { TotalNumber := 1, Results := ["a"] }
                    else { TotalNumber := 1, Results := ["b"] }
  fetch := fun s => if s = "b" then some vB else none }

/-- Folder input where the first page reports a total of 5 but the second
page reports a total of 1; all per-video fetches succeed. -/
def inpShrinkingTotal : FolderInput := {
  folderName := some "F"
  folderId := "fid"
  pages := fun n => if n = 0 then { TotalNumber := 5, Results := ["a"] }
                    else { TotalNumber := 1, Results := ["b"] }
  fetch := fun s => if s = "a" then some vA else some vB }

/-- Folder input whose single relevant page lists three sessions, the
middle fetch failing. -/
def inpMidFailure : FolderInput := {
  folderName := some "F"
  folderId := "fid"
  pages := fun _ => { TotalNumber := 2, Results := ["a", "b", "c"] }
  fetch := fun s => if s = "a" then some vA else if s = "c" then some vC else none }

/-! ## Error classifier: claims C5 and C10 -/

/-- **C5, counterexample.**  The claim says: *if an error code field is
present* and the message contains the unauthorized substring, raise
auth-required; *else if an error code field is present*, raise an
api-error with that code and message.  Two concrete responses with the
`ErrorCode` field present refute it: with `ErrorCode = 0` the classifier
raises nothing at all (Python truthiness, not presence, guards both
branches), and with `ErrorCode = 7` but no `ErrorMessage` it dies with a
`TypeError` instead of raising an api-error. -/
theorem handle_error_claim_cex :
    handle_error_response { ErrorCode := some 0, ErrorMessage := some "Server failure" } "v"
      = ErrOutcome.ok ∧
    handle_error_response { ErrorCode := some 7, ErrorMessage := none } "v"
      = ErrOutcome.typeError := by
  exact ⟨rfl, rfl⟩

/-- **C5 (amended).**  For every decoded response: if the error code field
is absent or holds zero, nothing is raised; if it holds a non-zero code
but the message field is absent, a `TypeError` propagates instead of any
classification; if it holds a non-zero code and the message is present
and contains `"Unauthorized"`, the auth-required error (marked expected)
is raised; and if it holds a non-zero code and the message is present
without that substring, an api-error embedding the code and the message
verbatim in its text is raised. -/
theorem handle_error_spec (r : ErrResponse) (vid : String) :
    ((r.ErrorCode = none ∨ r.ErrorCode = some 0) → handle_error_response r vid = .ok) ∧
    (∀ c, r.ErrorCode = some c → c ≠ 0 → r.ErrorMessage = none →
      handle_error_response r vid = .typeError) ∧
    (∀ c msg, r.ErrorCode = some c → c ≠ 0 → r.ErrorMessage = some msg →
      strContains msg "Unauthorized" = true →
      handle_error_response r vid = .authRequired loginMessage true) ∧
    (∀ c msg, r.ErrorCode = some c → c ≠ 0 → r.ErrorMessage = some msg →
      strContains msg "Unauthorized" = false →
      handle_error_response r vid
        = .apiError ("Got error code " ++ toString c ++ ": " ++ msg) vid) := by
  refine ⟨?_, ?_, ?_, ?_⟩
  · rintro (h | h) <;> simp [handle_error_response, h]
  · intro c hc hc0 hm
    simp [handle_error_response, hc, hc0, hm]
  · intro c msg hc hc0 hm hsub
    simp [handle_error_response, hc, hc0, hm, hsub]
  · intro c msg hc hc0 hm hsub
    simp [handle_error_response, hc, hc0, hm, hsub]

/-- Witness for `handle_error_spec`: the unauthorized and the generic
api-error branches at concrete responses. -/
theorem handle_error_spec_witness :
    handle_error_response { ErrorCode := some 1, ErrorMessage := some "Unauthorized access" } "v"
      = ErrOutcome.authRequired loginMessage true ∧
    handle_error_response { ErrorCode := some 2, ErrorMessage := some "kaput" } "v"
      = ErrOutcome.apiError "Got error code 2: kaput" "v" := by
  constructor
  · exact (handle_error_spec { ErrorCode := some 1, ErrorMessage := some "Unauthorized access" }
      "v").2.2.1 1 "Unauthorized access" rfl (by decide) rfl (by decide)
  · exact (handle_error_spec { ErrorCode := some 2, ErrorMessage := some "kaput" }
      "v").2.2.2 2 "kaput" rfl (by decide) rfl (by decide)

/-- **C10.**  For every response whose error code field is present and
truthy (non-zero) but whose error message field is absent, the classifier
produces neither an auth-required nor an api-error outcome: evaluating
`"Unauthorized" in None` raises a `TypeError`. -/
theorem handle_error_missing_message (r : ErrResponse) (vid : String) (c : Int)
    (h1 : r.ErrorCode = some c) (h2 : c ≠ 0) (h3 : r.ErrorMessage = none) :
    handle_error_response r vid = ErrOutcome.typeError := by
  simp [handle_error_response, h1, h2, h3]

/-- Witness for `handle_error_missing_message` at a concrete response. -/
theorem handle_error_missing_message_witness :
    handle_error_response { ErrorCode := some 5, ErrorMessage := none } "v"
      = ErrOutcome.typeError :=
  handle_error_missing_message { ErrorCode := some 5, ErrorMessage := none } "v" 5
    rfl (by decide) rfl

/-! ## Chapter extractor: claim C2 -/

/-- `mkChapters` yields one chapter per timestamp entry. -/
theorem mkChapters_length (v : ℚ) : ∀ ts : List Timestamp, (mkChapters v ts).length = ts.length
  | [] => rfl
  | [_] => rfl
  | _ :: t2 :: rest => by
    simp only [mkChapters, List.length_cons]
    rw [mkChapters_length v (t2 :: rest)]
    simp

/-- Elementwise description of `mkChapters`: chapter `i` starts at entry
`i`'s time and ends at entry `i+1`'s time, defaulting to the total
duration when entry `i+1` is missing a time or does not exist. -/
theorem mkChapters_getElem (v : ℚ) :
    ∀ (ts : List Timestamp) (i : ℕ) (t : Timestamp), ts[i]? = some t →
      (mkChapters v ts)[i]? = some
        { start_time := t.Time,
          end_time := some ((ts[i+1]?.map fun t2 => t2.Time.getD v).getD v),
          title := pyOrStr t.Caption t.Data }
  | [], i, t, h => by simp at h
  | [t0], 0, t, h => by
    simp only [List.getElem?_cons_zero, Option.some.injEq] at h
    subst h
    simp [mkChapters]
  | [t0], i + 1, t, h => by simp at h
  | t0 :: t2 :: rest, 0, t, h => by
    simp only [List.getElem?_cons_zero, Option.some.injEq] at h
    subst h
    simp [mkChapters]
  | t0 :: t2 :: rest, i + 1, t, h => by
    have ih := mkChapters_getElem v (t2 :: rest) i t (by simpa using h)
    simpa [mkChapters] using ih

/-- Computation rule for `try_parse_timestamps` when the duration is
present and non-zero and the timestamp list is present and non-empty. -/
theorem try_parse_timestamps_eq (d : Delivery) (vt : ℚ) (ts : List Timestamp)
    (hvt : d.Duration = some vt) (hts : d.Timestamps = some ts)
    (hvt0 : vt ≠ 0) (hts0 : ts ≠ []) :
    try_parse_timestamps d = some (mkChapters vt ts) := by
  unfold try_parse_timestamps
  rw [hvt, hts]
  simp [hvt0, hts0]

/-- **C2.**  For every delivery payload, the chapter result is `None`
(absent, not an empty list) exactly when `Duration` is absent or zero or
`Timestamps` is absent or empty; otherwise, for `N` timestamp entries
exactly `N` chapters are returned, chapter `i`'s start is entry `i`'s
(optional) time, chapter `i`'s end equals entry `i+1`'s time whenever
that entry exists and carries a time, and the last chapter's end is the
total duration. -/
theorem try_parse_timestamps_spec (d : Delivery) :
    (try_parse_timestamps d = none ↔
      d.Duration = none ∨ d.Duration = some 0 ∨
      d.Timestamps = none ∨ d.Timestamps = some []) ∧
    (∀ vt ts chs, d.Duration = some vt → d.Timestamps = some ts →
      try_parse_timestamps d = some chs →
      chs.length = ts.length ∧
      (∀ i t c, ts[i]? = some t → chs[i]? = some c →
        c.start_time = t.Time ∧
        (∀ t2 x, ts[i+1]? = some t2 → t2.Time = some x → c.end_time = some x) ∧
        (i + 1 = ts.length → c.end_time = some vt))) := by
  constructor
  · unfold try_parse_timestamps
    match hd : d.Duration with
    | none => simp
    | some vt =>
      by_cases hvt : vt = 0
      · simp [hvt]
      · simp only [if_neg hvt]
        match ht : d.Timestamps with
        | none => simp [hvt]
        | some ts =>
          by_cases hts : ts = []
          · simp [hts, hvt]
          · simp [hts, hvt]
  · intro vt ts chs hvt hts h
    by_cases hvt0 : vt = 0
    · have hn : try_parse_timestamps d = none := by
        unfold try_parse_timestamps
        rw [hvt]
        simp [hvt0]
      rw [hn] at h
      exact absurd h (by simp)
    · by_cases hts0 : ts = []
      · have hn : try_parse_timestamps d = none := by
          unfold try_parse_timestamps
          rw [hvt, hts]
          simp [hts0]
        rw [hn] at h
        exact absurd h (by simp)
      · rw [try_parse_timestamps_eq d vt ts hvt hts hvt0 hts0, Option.some.injEq] at h
        subst h
        refine ⟨mkChapters_length vt ts, ?_⟩
        intro i t c hti hci
        rw [mkChapters_getElem vt ts i t hti, Option.some.injEq] at hci
        subst hci
        refine ⟨rfl, ?_, ?_⟩
        · intro t2 x ht2 hx
          simp [ht2, hx]
        · intro hlast
          have : ts[i+1]? = none := by
            rw [List.getElem?_eq_none]
            omega
          simp [this]

/-- Witness for `try_parse_timestamps_spec`: duration 60 with timestamps
at 0 (`"Intro"`) and 30 (`"Body"`) yields exactly the two chapters
`[0, 30, "Intro"]` and `[30, 60, "Body"]`. -/
theorem try_parse_timestamps_spec_witness :
    chsChapters.length = 2 ∧
    try_parse_timestamps dChapters = some chsChapters ∧
    chsChapters[1]? = some { start_time := some 30, end_time := some 60, title := some "Body" } := by
  have h := (try_parse_timestamps_spec dChapters).2 60
    ((dChapters.Timestamps).getD []) chsChapters rfl rfl (by decide)
  refine ⟨by simpa [dChapters] using h.1, by decide, by decide⟩

/-! ## No-playable-formats error: claim C7 -/

/-- A podcast entry contributes no format exactly when its `StreamUrl` is
absent or empty. -/
theorem podcastFormatOf_eq_none (p : PodcastStream) :
    podcastFormatOf p = none ↔ p.StreamUrl = none ∨ p.StreamUrl = some "" := by
  cases hu : p.StreamUrl with
  | none => simp [podcastFormatOf, hu]
  | some u => by_cases hne : u = "" <;> simp [podcastFormatOf, hu, hne]

/-- A generic stream entry contributes no format exactly when its
`StreamUrl` is absent or empty. -/
theorem streamFormatOf_eq_none (s : Stream) :
    streamFormatOf s = none ↔ s.StreamUrl = none ∨ s.StreamUrl = some "" := by
  cases hu : s.StreamUrl with
  | none => simp [streamFormatOf, hu]
  | some u =>
    by_cases hne : u = ""
    · simp [streamFormatOf, hu, hne]
    · constructor
      · intro h
        exfalso
        cases hsplit : splitLastDot (s.Name.getD "") with
        | some p => simp [streamFormatOf, hu, hne, hsplit] at h
        | none =>
          by_cases hn : s.Name.getD "" = ""
          · simp [streamFormatOf, hu, hne, hn, splitLastDot, splitLastDotAux] at h
          · simp [streamFormatOf, hu, hne, hsplit, hn] at h
      · rintro (hL | hR)
        · exact absurd hL (by simp)
        · exact absurd (Option.some.inj hR) hne

/-- The discovery phase produces no format at all exactly when every
entry of both lists has an absent or empty `StreamUrl`. -/
theorem discoveredFormats_eq_nil (d : Delivery) :
    discoveredFormats d = [] ↔
      (∀ p ∈ d.PodcastStreams.getD [], p.StreamUrl = none ∨ p.StreamUrl = some "") ∧
      (∀ s ∈ d.Streams.getD [], s.StreamUrl = none ∨ s.StreamUrl = some "") := by
  unfold discoveredFormats
  rw [List.append_eq_nil, List.filterMap_eq_nil_iff, List.filterMap_eq_nil_iff]
  constructor
  · rintro ⟨h1, h2⟩
    exact ⟨fun p hp => (podcastFormatOf_eq_none p).mp (h1 p hp),
           fun s hs => (streamFormatOf_eq_none s).mp (h2 s hs)⟩
  · rintro ⟨h1, h2⟩
    exact ⟨fun p hp => (podcastFormatOf_eq_none p).mpr (h1 p hp),
           fun s hs => (streamFormatOf_eq_none s).mpr (h2 s hs)⟩

/-- **C7.**  Delivery normalization raises the no-playable-formats error
if and only if, after processing both the podcast-stream list and the
generic-stream list, no format was discovered — i.e. every entry of both
lists has an empty or absent stream URL (vacuously, when the lists are
empty or absent) — and it never returns a `VideoMetadata` whose format
sequence is empty. -/
theorem download_no_playable_spec (d : Delivery) (vid : String) :
    (download_panopto_video d vid = .error .noPlayableFormats ↔
      (∀ p ∈ d.PodcastStreams.getD [], p.StreamUrl = none ∨ p.StreamUrl = some "") ∧
      (∀ s ∈ d.Streams.getD [], s.StreamUrl = none ∨ s.StreamUrl = some "")) ∧
    (∀ m, download_panopto_video d vid = .ok m → m.formats ≠ []) := by
  constructor
  · rw [← discoveredFormats_eq_nil]
    unfold download_panopto_video
    by_cases hdf : discoveredFormats d = [] <;> simp [hdf]
  · intro m hm
    unfold download_panopto_video at hm
    by_cases hdf : discoveredFormats d = []
    · simp [hdf] at hm
    · rw [if_neg hdf, Except.ok.injEq] at hm
      subst hm
      intro hc
      apply hdf
      have hc2 : List.insertionSort fmtLe (discoveredFormats d) = [] := hc
      have hp := List.perm_insertionSort fmtLe (discoveredFormats d)
      rw [hc2] at hp
      have hlen := hp.length_eq
      simp only [List.length_nil] at hlen
      exact List.length_eq_zero.mp hlen.symm

/-- Witness for `download_no_playable_spec`: a delivery whose only stream
entry has an empty URL raises the error, and a delivery with one playable
podcast stream yields a non-empty format list. -/
theorem download_no_playable_spec_witness :
    download_panopto_video dNoPlayable "v" = .error .noPlayableFormats ∧
    mOnePodcast.formats ≠ [] := by
  constructor
  · exact (download_no_playable_spec dNoPlayable "v").1.mpr (by decide)
  · exact (download_no_playable_spec dOnePodcast "v").2 mOnePodcast rfl

/-! ## Title composition: claim C8 -/

/-- Appending to a non-empty string on the left never yields the empty
string. -/
theorem append_ne_empty_left (a b : String) (h : a ≠ "") : a ++ b ≠ "" := by
  intro hc
  apply h
  have h2 := congrArg String.data hc
  rw [String.data_append] at h2
  simp only [List.append_eq_nil] at h2
  exact String.ext (by simpa using h2.1)

/-- **C8, counterexample.**  The claim says that when both name parts are
empty the title falls back to the public identifier field *and then* to
the video identifier.  With both name parts absent and `PublicID` present
but equal to `""`, the produced title is the empty string, not the video
identifier `"vid-123"`: the `dict.get` default applies only when the
field is absent, so there is no second fallback on an empty public
identifier. -/
theorem title_claim_cex :
    download_panopto_video dEmptyPublicId "vid-123" = .ok mEmptyPublicId ∧
    mEmptyPublicId.title = "" ∧ ("" : String) ≠ "vid-123" := by
  refine ⟨rfl, rfl, by decide⟩

/-- **C8 (amended).**  The title of a normalized video equals the
non-empty values among the group-level long name and the session name, in
that order, joined with `" -> "`; when both are empty or absent, the
title is the value of the `PublicID` field whenever that field is present
(even when its value is the empty string), and the originating video
identifier only when the `PublicID` field is absent. -/
theorem title_spec (d : Delivery) (vid : String) :
    (∀ m, download_panopto_video d vid = .ok m → m.title = mkTitle d vid) ∧
    (∀ g s, d.SessionGroupLongName = some g → g ≠ "" →
      d.SessionName = some s → s ≠ "" → mkTitle d vid = g ++ " -> " ++ s) ∧
    (∀ g, d.SessionGroupLongName = some g → g ≠ "" →
      (d.SessionName = none ∨ d.SessionName = some "") → mkTitle d vid = g) ∧
    (∀ s, (d.SessionGroupLongName = none ∨ d.SessionGroupLongName = some "") →
      d.SessionName = some s → s ≠ "" → mkTitle d vid = s) ∧
    ((d.SessionGroupLongName = none ∨ d.SessionGroupLongName = some "") →
      (d.SessionName = none ∨ d.SessionName = some "") →
      mkTitle d vid = d.PublicID.getD vid) := by
  refine ⟨?_, ?_, ?_, ?_, ?_⟩
  · intro m hm
    unfold download_panopto_video at hm
    by_cases hdf : discoveredFormats d = []
    · simp [hdf] at hm
    · rw [if_neg hdf, Except.ok.injEq] at hm
      subst hm
      rfl
  · intro g s hg hgne hs hsne
    have hne2 : g ++ " -> " ++ s ≠ "" :=
      append_ne_empty_left (g ++ " -> ") s (append_ne_empty_left g " -> " hgne)
    simp [mkTitle, hg, hs, pyTruthyStr, hgne, hsne, String.intercalate,
      String.intercalate.go, hne2]
  · intro g hg hgne hs
    rcases hs with hs | hs <;>
      simp [mkTitle, hg, hs, pyTruthyStr, hgne, String.intercalate,
        String.intercalate.go]
  · intro s hg hs hsne
    rcases hg with hg | hg <;>
      simp [mkTitle, hg, hs, pyTruthyStr, hsne, String.intercalate,
        String.intercalate.go]
  · intro hg hs
    rcases hg with hg | hg <;> rcases hs with hs | hs <;>
      simp [mkTitle, hg, hs, pyTruthyStr, String.intercalate]

/-- Witness for `title_spec`: group `"A"` and session `"B"` give
`"A -> B"`, and the empty-`PublicID` delivery gives that field's value. -/
theorem title_spec_witness :
    mkTitle dTitleAB "v" = "A" ++ " -> " ++ "B" ∧
    mkTitle dEmptyPublicId "vid-123" = dEmptyPublicId.PublicID.getD "vid-123" := by
  constructor
  · exact (title_spec dTitleAB "v").2.1 "A" "B" rfl (by decide) rfl (by decide)
  · exact (title_spec dEmptyPublicId "vid-123").2.2.2.2 (Or.inl rfl) (Or.inl rfl)

/-! ## Stream-name parsing: claim C9 -/

/-- Correctness of the last-dot splitter on character lists: it fails
exactly on dot-free lists, and a successful split decomposes the list
around a dot with a dot-free remainder (hence around the *last* dot). -/
theorem splitLastDotAux_spec : ∀ l : List Char,
    (splitLastDotAux l = none ↔ '.' ∉ l) ∧
    (∀ f e, splitLastDotAux l = some (f, e) → l = f ++ '.' :: e ∧ '.' ∉ e)
  | [] => by simp [splitLastDotAux]
  | c :: cs => by
    obtain ⟨ih1, ih2⟩ := splitLastDotAux_spec cs
    cases hcs : splitLastDotAux cs with
    | some p =>
      obtain ⟨f, e⟩ := p
      obtain ⟨hfe, hne⟩ := ih2 f e hcs
      constructor
      · simp only [splitLastDotAux, hcs]
        refine iff_of_false (by simp) (fun hnotin => absurd ?_ hnotin)
        rw [hfe]
        simp
      · intro f2 e2 h
        simp only [splitLastDotAux, hcs, Option.some.injEq, Prod.mk.injEq] at h
        obtain ⟨hf2, he2⟩ := h
        subst hf2
        subst he2
        constructor
        · rw [hfe]
          rfl
        · exact hne
    | none =>
      by_cases hc : c = '.'
      · subst hc
        constructor
        · simp [splitLastDotAux, hcs]
        · intro f2 e2 h
          simp [splitLastDotAux, hcs] at h
          obtain ⟨hf2, he2⟩ := h
          subst hf2
          subst he2
          exact ⟨rfl, ih1.mp hcs⟩
      · constructor
        · simp [splitLastDotAux, hcs, hc, ih1.mp hcs, Ne.symm hc]
        · intro f2 e2 h
          simp [splitLastDotAux, hcs, hc] at h

/-- Correctness of `splitLastDot` at the string level. -/
theorem splitLastDot_spec (nm : String) :
    (splitLastDot nm = none ↔ '.' ∉ nm.data) ∧
    (∀ fn ext, splitLastDot nm = some (fn, ext) →
      nm.data = fn.data ++ '.' :: ext.data ∧ '.' ∉ ext.data) := by
  obtain ⟨h1, h2⟩ := splitLastDotAux_spec nm.data
  constructor
  · rw [splitLastDot, Option.map_eq_none']
    exact h1
  · intro fn ext h
    rw [splitLastDot] at h
    cases haux : splitLastDotAux nm.data with
    | none =>
      rw [haux] at h
      simp at h
    | some p =>
      obtain ⟨f, e⟩ := p
      rw [haux] at h
      simp only [Option.map_some', Option.some.injEq, Prod.mk.injEq] at h
      obtain ⟨hfn, hext⟩ := h
      obtain ⟨hl, hni⟩ := h2 f e haux
      subst hfn
      subst hext
      exact ⟨by simpa using hl, by simpa using hni⟩

/-- **C9.**  For every generic stream entry whose URL is present and
non-empty, with `name` the display name (`stream.get("Name") or ""`): the
trailing-dot pattern matches exactly when `name` contains a dot, and a
match splits `name` at its last dot into a filename part and an extension
part; on a match the entry's `ext` is that extension and its note is
`"shared-screen"` when the filename part contains `"Shared screen"`, else
`"speaker-view"` when it contains `"Speaker view"`, else the filename
part itself; with no match and a non-empty name the note is the raw name
and no extension is recorded; with an empty name the note is
`"unknown"`. -/
theorem stream_note_spec (s : Stream) (u : String)
    (hu : s.StreamUrl = some u) (hne : u ≠ "") :
    (splitLastDot (s.Name.getD "") = none ↔ '.' ∉ (s.Name.getD "").data) ∧
    (∀ fn ext, splitLastDot (s.Name.getD "") = some (fn, ext) →
      (s.Name.getD "").data = fn.data ++ '.' :: ext.data ∧ '.' ∉ ext.data) ∧
    (∀ fn ext, splitLastDot (s.Name.getD "") = some (fn, ext) →
      strContains fn "Shared screen" = true →
      streamFormatOf s = some { url := u, ext := some ext, format_note := "shared-screen" }) ∧
    (∀ fn ext, splitLastDot (s.Name.getD "") = some (fn, ext) →
      strContains fn "Shared screen" = false → strContains fn "Speaker view" = true →
      streamFormatOf s = some { url := u, ext := some ext, format_note := "speaker-view" }) ∧
    (∀ fn ext, splitLastDot (s.Name.getD "") = some (fn, ext) →
      strContains fn "Shared screen" = false → strContains fn "Speaker view" = false →
      streamFormatOf s = some { url := u, ext := some ext, format_note := fn }) ∧
    (splitLastDot (s.Name.getD "") = none → s.Name.getD "" ≠ "" →
      streamFormatOf s = some { url := u, ext := none, format_note := s.Name.getD "" }) ∧
    (s.Name.getD "" = "" →
      streamFormatOf s = some { url := u, ext := none, format_note := "unknown" }) := by
  refine ⟨(splitLastDot_spec _).1, fun fn ext h => (splitLastDot_spec _).2 fn ext h,
    ?_, ?_, ?_, ?_, ?_⟩
  · intro fn ext hsplit hshared
    simp [streamFormatOf, hu, hne, hsplit, hshared]
  · intro fn ext hsplit hshared hspeaker
    simp [streamFormatOf, hu, hne, hsplit, hshared, hspeaker]
  · intro fn ext hsplit hshared hspeaker
    simp [streamFormatOf, hu, hne, hsplit, hshared, hspeaker]
  · intro hsplit hn
    simp [streamFormatOf, hu, hne, hsplit, hn]
  · intro hn
    simp [streamFormatOf, hu, hne, hn, splitLastDot, splitLastDotAux]

/-- Witness for `stream_note_spec`: the entry
`{StreamUrl: "s.mp4", Name: "Speaker view.mp4"}` yields extension
`"mp4"` and note `"speaker-view"`. -/
theorem stream_note_spec_witness :
    streamFormatOf { StreamUrl := some "s.mp4", Name := some "Speaker view.mp4" }
      = some { url := "s.mp4", ext := some "mp4", format_note := "speaker-view" } := by
  exact (stream_note_spec { StreamUrl := some "s.mp4", Name := some "Speaker view.mp4" }
    "s.mp4" rfl (by decide)).2.2.2.1 "Speaker view" "mp4" (by decide) (by decide) (by decide)

/-! ## Format ranking: claim C1 -/

/-- Effect of one ordered insertion on the sublist of a given weight `w`:
the inserted element is prepended to that sublist when its weight is `w`
(every element it moves past has a strictly smaller weight), and the
sublist is untouched otherwise. -/
theorem orderedInsert_filter_key (f : StreamFormat) (w : ℕ) :
    ∀ l : List StreamFormat,
      (List.orderedInsert fmtLe f l).filter
          (fun g => FORMAT_TO_ORDERING g.format_note == w)
        = if FORMAT_TO_ORDERING f.format_note = w
          then f :: l.filter (fun g => FORMAT_TO_ORDERING g.format_note == w)
          else l.filter (fun g => FORMAT_TO_ORDERING g.format_note == w)
  | [] => by
    by_cases hw : FORMAT_TO_ORDERING f.format_note = w <;>
      simp [List.orderedInsert, hw]
  | g :: gs => by
    by_cases hle : fmtLe f g
    · by_cases hw : FORMAT_TO_ORDERING f.format_note = w <;>
        simp [List.orderedInsert, hle, List.filter_cons, hw]
    · have hlt : FORMAT_TO_ORDERING g.format_note < FORMAT_TO_ORDERING f.format_note := by
        simp only [fmtLe] at hle
        omega
      have ih := orderedInsert_filter_key f w gs
      by_cases hw : FORMAT_TO_ORDERING f.format_note = w
      · have hgw : ¬ FORMAT_TO_ORDERING g.format_note = w := by omega
        rw [if_pos hw] at ih
        simp [List.orderedInsert, hle, List.filter_cons, hgw, ih, hw]
      · rw [if_neg hw] at ih
        simp only [List.orderedInsert, if_neg hle, List.filter_cons]
        rw [ih, if_neg hw]

/-- Stability of the format sort: for every weight `w`, the subsequence
of formats of weight `w` is exactly the one of the unsorted list, in the
same (discovery) order. -/
theorem sortFormats_filter_key (w : ℕ) : ∀ l : List StreamFormat,
    (sortFormats l).filter (fun g => FORMAT_TO_ORDERING g.format_note == w)
      = l.filter (fun g => FORMAT_TO_ORDERING g.format_note == w)
  | [] => rfl
  | f :: l => by
    have ih := sortFormats_filter_key w l
    unfold sortFormats at ih ⊢
    simp only [List.insertionSort]
    by_cases hw : FORMAT_TO_ORDERING f.format_note = w
    · rw [orderedInsert_filter_key, if_pos hw, ih]
      simp [List.filter_cons, hw]
    · rw [orderedInsert_filter_key, if_neg hw, ih]
      simp [List.filter_cons, hw]

/-- The sorted format list is ascending in the weight table. -/
theorem sortFormats_sorted (l : List StreamFormat) :
    (sortFormats l).Pairwise
      (fun a b => FORMAT_TO_ORDERING a.format_note ≤ FORMAT_TO_ORDERING b.format_note) :=
  List.sorted_insertionSort fmtLe l

/-- An element returned by `getLast?` is a member of the list. -/
theorem getLast?_mem_of_eq_some {α : Type} :
    ∀ (l : List α) (g : α), l.getLast? = some g → g ∈ l
  | [], g, h => by simp at h
  | [a], g, h => by
    simp only [List.getLast?_singleton, Option.some.injEq] at h
    simp [h]
  | a :: b :: t, g, h => by
    rw [List.getLast?_cons_cons] at h
    exact List.mem_cons_of_mem a (getLast?_mem_of_eq_some (b :: t) g h)

/-- In a `Pairwise r` list, every member is the last element or relates
to it. -/
theorem pairwise_rel_getLast {α : Type} {r : α → α → Prop} :
    ∀ (l : List α), l.Pairwise r → ∀ f ∈ l, ∀ g, l.getLast? = some g → f = g ∨ r f g
  | [], _, f, hf, _, _ => absurd hf (by simp)
  | [a], _, f, hf, g, hg => by
    simp only [List.mem_singleton] at hf
    simp only [List.getLast?_singleton, Option.some.injEq] at hg
    subst hf
    subst hg
    exact Or.inl rfl
  | a :: b :: t, hp, f, hf, g, hg => by
    rw [List.getLast?_cons_cons] at hg
    rcases List.mem_cons.mp hf with rfl | hf2
    · exact Or.inr ((List.pairwise_cons.mp hp).1 g (getLast?_mem_of_eq_some _ g hg))
    · exact pairwise_rel_getLast (b :: t) (List.pairwise_cons.mp hp).2 f hf2 g hg

/-- The weight table is bounded by 3. -/
theorem FORMAT_TO_ORDERING_le_three (n : String) : FORMAT_TO_ORDERING n ≤ 3 := by
  unfold FORMAT_TO_ORDERING
  split
  · omega
  · split
    · omega
    · split <;> omega

/-- Only the podcast note reaches weight 3. -/
theorem FORMAT_TO_ORDERING_eq_three (n : String) (h : 3 ≤ FORMAT_TO_ORDERING n) :
    n = "podcast" := by
  by_contra hn
  unfold FORMAT_TO_ORDERING at h
  rw [if_neg hn] at h
  split at h
  · omega
  · split at h <;> omega

/-- **C1, counterexample.**  The claim says the format sequence is sorted
*descending* by weight, a podcast rendition always coming *first*.  On
the delivery of spec scenario 1 (one podcast stream, one speaker-view
stream) the code produces the notes `["speaker-view", "podcast"]`:
`sorted(...)` with a plain key sorts *ascending*, so the podcast
rendition (weight 3) is placed last even though it is present. -/
theorem format_ranking_claim_cex :
    download_panopto_video dPodSpk "vid" = .ok mPodSpk ∧
    mPodSpk.formats.map (fun f => f.format_note) = ["speaker-view", "podcast"] := by
  exact ⟨rfl, rfl⟩

/-- **C1 (amended).**  For every `VideoMetadata` produced by the
normalizer, the formats sequence is sorted in *ascending* order of the
fixed weight table (`podcast = 3`, `shared-screen = 2`,
`speaker-view = 1`, any other note `0`), ties keeping original discovery
order (the sort is stable); in particular, whenever a podcast format is
present it appears *last* (youtube-dl lists formats worst first, so the
preferred rendition goes last). -/
theorem format_ranking_spec (d : Delivery) (vid : String) (m : VideoMetadata)
    (h : download_panopto_video d vid = .ok m) :
    m.formats.Pairwise
      (fun a b => FORMAT_TO_ORDERING a.format_note ≤ FORMAT_TO_ORDERING b.format_note) ∧
    (∀ w, m.formats.filter (fun f => FORMAT_TO_ORDERING f.format_note == w)
        = (discoveredFormats d).filter (fun f => FORMAT_TO_ORDERING f.format_note == w)) ∧
    (∀ f ∈ m.formats, f.format_note = "podcast" →
      ∃ g, m.formats.getLast? = some g ∧ g.format_note = "podcast") := by
  have hmf : m.formats = sortFormats (discoveredFormats d) := by
    unfold download_panopto_video at h
    by_cases hdf : discoveredFormats d = []
    · simp [hdf] at h
    · rw [if_neg hdf, Except.ok.injEq] at h
      subst h
      rfl
  rw [hmf]
  refine ⟨sortFormats_sorted _, fun w => sortFormats_filter_key w _, ?_⟩
  intro f hf hpod
  cases hlast : (sortFormats (discoveredFormats d)).getLast? with
  | none =>
    rw [List.getLast?_eq_none_iff] at hlast
    rw [hlast] at hf
    exact absurd hf (by simp)
  | some g =>
    refine ⟨g, rfl, ?_⟩
    rcases pairwise_rel_getLast _ (sortFormats_sorted (discoveredFormats d)) f hf g hlast
      with rfl | hrel
    · exact hpod
    · apply FORMAT_TO_ORDERING_eq_three
      have h3 : FORMAT_TO_ORDERING f.format_note = 3 := by rw [hpod]; rfl
      omega

/-- Witness for `format_ranking_spec`: the delivery with podcast,
shared-screen and speaker-view renditions yields the ascending, stable
order with the podcast last. -/
theorem format_ranking_spec_witness :
    mAllThree.formats.Pairwise
      (fun a b => FORMAT_TO_ORDERING a.format_note ≤ FORMAT_TO_ORDERING b.format_note) ∧
    (∀ w, mAllThree.formats.filter (fun f => FORMAT_TO_ORDERING f.format_note == w)
        = (discoveredFormats dAllThree).filter
            (fun f => FORMAT_TO_ORDERING f.format_note == w)) ∧
    (∀ f ∈ mAllThree.formats, f.format_note = "podcast" →
      ∃ g, mAllThree.formats.getLast? = some g ∧ g.format_note = "podcast") :=
  format_ranking_spec dAllThree "vid" mAllThree rfl

/-! ## Folder aggregation: claims C3, C4 and C6 -/

/-- Unfolding of `successEntries` by one page. -/
theorem successEntries_succ (inp : FolderInput) (k : ℕ) :
    successEntries inp (k + 1)
      = successEntries inp k ++ (inp.pages k).Results.filterMap inp.fetch := by
  unfold successEntries
  rw [List.range_succ, List.flatMap_append, List.filterMap_append]
  simp

/-- Invariant of the pagination loop: started from the state reached
after fetching pages `0 … q`, a terminating run has fetched pages
`0 … k'` with `q ≤ k'`, accumulated exactly the successful entries of
those pages, left `max_elements` at the *last* page's reported total,
stopped with at least that many successful entries, and continued at
every earlier page because the successful count was still below that
page's reported total. -/
theorem folderLoop_inv (inp : FolderInput) : ∀ (fuel q k : ℕ)
    (res : List VideoMetadata) (mfin : Option ℕ),
    folderLoop inp fuel (some ((inp.pages q).TotalNumber))
        (successEntries inp (q + 1)) (q + 1) = some (res, k, mfin) →
    ∃ k', k = k' + 1 ∧ q ≤ k' ∧
      res = successEntries inp (k' + 1) ∧
      mfin = some ((inp.pages k').TotalNumber) ∧
      (inp.pages k').TotalNumber ≤ (successEntries inp (k' + 1)).length ∧
      ∀ j, q ≤ j → j < k' →
        (successEntries inp (j + 1)).length < (inp.pages j).TotalNumber := by
  intro fuel
  induction fuel with
  | zero =>
    intro q k res mfin h
    exact absurd h (by simp [folderLoop])
  | succ fuel ih =>
    intro q k res mfin h
    rw [folderLoop] at h
    by_cases hc : continueLoop (some ((inp.pages q).TotalNumber))
        (successEntries inp (q + 1)).length = true
    · rw [if_pos hc] at h
      rw [← successEntries_succ inp (q + 1)] at h
      obtain ⟨k', hk, hqk, hres, hm, hstop, hcont⟩ := ih (q + 1) k res mfin h
      have hqlt : (successEntries inp (q + 1)).length < (inp.pages q).TotalNumber := by
        simpa [continueLoop] using hc
      refine ⟨k', hk, by omega, hres, hm, hstop, ?_⟩
      intro j hqj hjk
      by_cases hj : j = q
      · subst hj
        exact hqlt
      · exact hcont j (by omega) hjk
    · rw [if_neg hc] at h
      simp only [Option.some.injEq, Prod.mk.injEq] at h
      obtain ⟨hres, hk, hm⟩ := h
      refine ⟨q, hk.symm, le_refl q, hres.symm, hm.symm, ?_, ?_⟩
      · have := hc
        simp [continueLoop] at this
        simpa using this
      · intro j hqj hjq
        omega

/-- A terminating run of the pagination loop from its initial state:
some `k' + 1` pages were fetched, the result is exactly the successful
entries of those pages in fetch order, the final threshold is the *last*
page's reported total, the successful count has reached it, and every
earlier page was followed by another fetch because the successful count
was below that page's total. -/
theorem folderLoop_run (inp : FolderInput) (fuel : ℕ) (res : List VideoMetadata)
    (k : ℕ) (mfin : Option ℕ)
    (h : folderLoop inp fuel none [] 0 = some (res, k, mfin)) :
    ∃ k', k = k' + 1 ∧
      res = successEntries inp k ∧
      mfin = some ((inp.pages k').TotalNumber) ∧
      (inp.pages k').TotalNumber ≤ (successEntries inp k).length ∧
      ∀ j, j < k' →
        (successEntries inp (j + 1)).length < (inp.pages j).TotalNumber := by
  match fuel with
  | 0 => exact absurd h (by simp [folderLoop])
  | fuel + 1 =>
    rw [folderLoop] at h
    have hc : continueLoop none ([] : List VideoMetadata).length = true := rfl
    rw [if_pos hc] at h
    have h0 : ([] : List VideoMetadata) ++ (inp.pages 0).Results.filterMap inp.fetch
        = successEntries inp (0 + 1) := by
      rw [successEntries_succ]
      simp [successEntries]
    rw [h0] at h
    obtain ⟨k', hk, hqk, hres, hm, hstop, hcont⟩ := folderLoop_inv inp fuel 0 k res mfin h
    subst hk
    exact ⟨k', rfl, hres, hm, hstop, fun j hj => hcont j (Nat.zero_le j) hj⟩

/-- **C3, counterexample.**  The claim says the loop stops as soon as the
count of *attempted* fetches reaches the total reported by the *first*
page.  In `inpOneFailure`, page 0 reports a total of 1 and lists one
session, whose fetch fails: one fetch has been attempted, so the claim
requires termination after 1 page — but the run fetches 2 pages (the
guard compares `len(entries)`, the count of *successful* fetches, i.e. 0
after page 0). -/
theorem folder_stop_claim_cex :
    folderLoop inpOneFailure 10 none [] 0 = some ([vB], 2, some 1) ∧
    (inpOneFailure.pages 0).TotalNumber = 1 ∧
    (inpOneFailure.pages 0).Results.length = 1 := by
  exact ⟨by decide, rfl, rfl⟩

/-- **C3 (amended).**  A terminating run of the page-fetch loop stops as
soon as the count of *successful* (not attempted) per-video fetches
reaches the total session count reported by the *most recently fetched*
page (not the first): on exit the successful count has reached the last
page's total, and after every earlier page the successful count was
still below that page's reported total, so the loop went on. -/
theorem folder_stop_spec (inp : FolderInput) (fuel : ℕ) (res : List VideoMetadata)
    (k : ℕ) (mfin : Option ℕ)
    (h : folderLoop inp fuel none [] 0 = some (res, k, mfin)) :
    1 ≤ k ∧
    (inp.pages (k - 1)).TotalNumber ≤ (successEntries inp k).length ∧
    ∀ j, j + 1 < k →
      (successEntries inp (j + 1)).length < (inp.pages j).TotalNumber := by
  obtain ⟨k', hk, _, _, hstop, hcont⟩ := folderLoop_run inp fuel res k mfin h
  subst hk
  refine ⟨by omega, by simpa using hstop, ?_⟩
  intro j hj
  exact hcont j (by omega)

/-- Witness for `folder_stop_spec` on the concrete run of
`inpOneFailure`. -/
theorem folder_stop_spec_witness :
    1 ≤ 2 ∧
    (inpOneFailure.pages (2 - 1)).TotalNumber ≤ (successEntries inpOneFailure 2).length ∧
    ∀ j, j + 1 < 2 →
      (successEntries inpOneFailure (j + 1)).length < (inpOneFailure.pages j).TotalNumber :=
  folder_stop_spec inpOneFailure 10 [vB] 2 (some 1) (by decide)

/-- **C4.**  For every terminating folder aggregation, per-video failures
are skipped without aborting: the resulting listing's title and
identifier are exactly the folder name and folder id (independently of
which fetches failed), and its entries are exactly the successful
fetches among all attempted `DeliveryID`s of the fetched pages, in fetch
order, failures being omitted (`filterMap`). -/
theorem folder_failure_skipped (inp : FolderInput) (fuel : ℕ) (r : FolderListing)
    (h : real_extract_folder inp fuel = some r) :
    r.title = inp.folderName ∧ r.id = inp.folderId ∧
    ∃ k, 1 ≤ k ∧
      r.entries
        = ((List.range k).flatMap fun i => (inp.pages i).Results).filterMap inp.fetch := by
  unfold real_extract_folder at h
  cases hrun : folderLoop inp fuel none [] 0 with
  | none =>
    rw [hrun] at h
    simp at h
  | some t =>
    obtain ⟨res, k, mfin⟩ := t
    rw [hrun] at h
    simp only [Option.map_some', Option.some.injEq] at h
    subst h
    obtain ⟨k', hk, hres, _, _, _⟩ := folderLoop_run inp fuel res k mfin hrun
    exact ⟨rfl, rfl, k, by omega, hres⟩

/-- Witness for `folder_failure_skipped`: in `inpMidFailure` the page
lists sessions `a`, `b`, `c`; the fetch of `b` fails and the final
listing keeps title `"F"`, id `"fid"` and exactly `[vA, vC]` in fetch
order. -/
theorem folder_failure_skipped_witness :
    ({ title := some "F", id := "fid", entries := [vA, vC] } : FolderListing).title
        = inpMidFailure.folderName ∧
    ({ title := some "F", id := "fid", entries := [vA, vC] } : FolderListing).id
        = inpMidFailure.folderId ∧
    ∃ k, 1 ≤ k ∧
      ({ title := some "F", id := "fid", entries := [vA, vC] } : FolderListing).entries
        = ((List.range k).flatMap fun i => (inpMidFailure.pages i).Results).filterMap
            inpMidFailure.fetch :=
  folder_failure_skipped inpMidFailure 10
    { title := some "F", id := "fid", entries := [vA, vC] } (by decide)

/-- **C6, counterexample.**  The claim says the stopping threshold is the
total read from the first page's response and is not re-read later.  In
`inpShrinkingTotal`, page 0 reports a total of 5 and page 1 reports 1;
both fetches succeed.  The run stops after page 1 with only 2 successful
entries and final threshold `some 1`: the count never reached the
first-page total of 5, so the threshold in effect was re-read from the
second page. -/
theorem folder_threshold_claim_cex :
    folderLoop inpShrinkingTotal 10 none [] 0 = some ([vA, vB], 2, some 1) ∧
    (inpShrinkingTotal.pages 0).TotalNumber = 5 ∧
    (2 : ℕ) < 5 := by
  exact ⟨by decide, rfl, by decide⟩

/-- **C6 (amended).**  In a terminating folder aggregation the stopping
threshold is re-read from every page's response: on exit the loop's
`max_elements` equals the total session count reported by the *most
recently fetched* page, and the successful-entry count has reached that
value (not necessarily the first page's). -/
theorem folder_threshold_spec (inp : FolderInput) (fuel : ℕ) (res : List VideoMetadata)
    (k : ℕ) (mfin : Option ℕ)
    (h : folderLoop inp fuel none [] 0 = some (res, k, mfin)) :
    1 ≤ k ∧
    mfin = some ((inp.pages (k - 1)).TotalNumber) ∧
    (inp.pages (k - 1)).TotalNumber ≤ res.length := by
  obtain ⟨k', hk, hres, hm, hstop, _⟩ := folderLoop_run inp fuel res k mfin h
  subst hk
  subst hres
  refine ⟨by omega, by simpa using hm, by simpa using hstop⟩

/-- Witness for `folder_threshold_spec` on the concrete run of
`inpShrinkingTotal`. -/
theorem folder_threshold_spec_witness :
    1 ≤ 2 ∧
    (some 1 : Option ℕ) = some ((inpShrinkingTotal.pages (2 - 1)).TotalNumber) ∧
    (inpShrinkingTotal.pages (2 - 1)).TotalNumber ≤ ([vA, vB] : List VideoMetadata).length :=
  folder_threshold_spec inpShrinkingTotal 10 [vA, vB] 2 (some 1) (by decide)

end Panopto

